import Mathlib

/-!
Verification of the tsgrep VS Code extension's interactive session controller
(`src/extension.ts`, `src/ObjectStore.ts`, and the repository's earlier
variants of the extension file).  The TypeScript source is shallowly embedded:
the external collaborators (the `tsgrep` search library, the Node `fs` and
`path` modules, the VS Code UI host) are modelled as explicit parameters, and
the stateful UI-resource handling becomes explicit state passing over an
`ExtState` record.
-/

/-! ## JavaScript / Node primitives used by the source -/

/-- A snapshot of the filesystem as `fs` exposes it to the extension:
`existsSync file` is `(fs file).isSome`, `readFileSync file 'utf8'` is the
stored string. -/
def FileSys : Type := String → Option String

/-- JS `String.prototype.split` with a one-character separator, on the
character list: `"".split(c)` is `[[]]`, and every separator occurrence opens
a new (possibly empty) field. -/
def splitChar (c : Char) : List Char → List (List Char)
  | [] => [[]]
  | x :: xs =>
    match splitChar c xs with
    | [] => [[x]]
    | h :: t => if x = c then [] :: h :: t else (x :: h) :: t

/-- JS `str.split(c)` for a one-character separator, as the extension uses it
on `','` (settings fields) and `'\n'` (file lines). -/
def jsSplitChar (c : Char) (s : String) : List String :=
  (splitChar c s.data).map String.mk

/-- Drop the leading whitespace characters of a character list. -/
def dropLeadingWS : List Char → List Char
  | [] => []
  | c :: cs => if c.isWhitespace then dropLeadingWS cs else c :: cs

/-- JS `String.prototype.trim`: strip leading and trailing whitespace. -/
def jsTrim (s : String) : String :=
  String.mk (dropLeadingWS ((dropLeadingWS s.data.reverse).reverse))

/-- Node `path.isAbsolute` on POSIX paths (workspace `fsPath`s on this
platform): the path starts with a separator. -/
def isAbsolute (p : String) : Bool :=
  match p.data with
  | [] => false
  | c :: _ => c = '/'

/-- Node `path.join workspacePath folder` for the already-normalized,
separator-free segments the extension passes it. -/
def pathJoin (a b : String) : String := a ++ "/" ++ b

/-- Node `path.basename` for paths without trailing separators: the last
`/`-separated component. -/
def basename (p : String) : String :=
  match (splitChar '/' p.data).getLast? with
  | some l => String.mk l
  | none => p

/-- `Array.from(new Set(xs))` worker: JS `Set` keeps first-seen order, so walk
the list and append each element not seen before. -/
def dedupAux : List String → List String → List String
  | acc, [] => acc
  | acc, y :: ys => if y ∈ acc then dedupAux acc ys else dedupAux (acc ++ [y]) ys

/-- `Array.from(new Set(xs))`: remove duplicates keeping the first occurrence
of each element, in order. -/
def dedupFirst (l : List String) : List String := dedupAux [] l

theorem mem_dedupAux (x : String) (l : List String) :
    ∀ acc, x ∈ dedupAux acc l ↔ x ∈ acc ∨ x ∈ l := by
  induction l with
  | nil => intro acc; simp [dedupAux]
  | cons y ys ih =>
    intro acc
    by_cases h : y ∈ acc
    · simp only [dedupAux, if_pos h, ih]
      constructor
      · rintro (hx | hx)
        · exact Or.inl hx
        · exact Or.inr (List.mem_cons_of_mem _ hx)
      · rintro (hx | hx)
        · exact Or.inl hx
        · rcases List.mem_cons.mp hx with rfl | hx
          · exact Or.inl h
          · exact Or.inr hx
    · simp only [dedupAux, if_neg h, ih, List.mem_append, List.mem_singleton,
        List.mem_cons]
      tauto

theorem mem_dedupFirst (x : String) (l : List String) :
    x ∈ dedupFirst l ↔ x ∈ l := by
  simpa [dedupFirst] using mem_dedupAux x l []

theorem nodup_dedupAux (l : List String) :
    ∀ acc : List String, acc.Nodup → (dedupAux acc l).Nodup := by
  induction l with
  | nil => intro acc h; simpa [dedupAux] using h
  | cons y ys ih =>
    intro acc hacc
    by_cases h : y ∈ acc
    · simpa [dedupAux, if_pos h] using ih acc hacc
    · have hstep : (acc ++ [y]).Nodup := by simp [List.nodup_append, hacc, h]
      simpa [dedupAux, if_neg h] using ih (acc ++ [y]) hstep

theorem nodup_dedupFirst (l : List String) : (dedupFirst l).Nodup :=
  nodup_dedupAux l [] List.nodup_nil

/-! ## Data model

`src/ObjectStore.ts` is a process-wide singleton `Map<string, any>`.  The
extension uses a fixed set of well-known keys, so the store is embedded as a
record with one `Option` slot per key (`none` = key absent).  UI resources
(webview panels, output channels, quick picks) are host objects with identity
and a dispose operation; they are embedded as records carrying a numeric
identity and a `disposed` flag, and the extension state keeps every resource
ever created so that disposal (or its absence) is observable. -/

/-- A result row as `interface SearchResult` declares it: absolute file path,
1-based line number, line content. -/
structure SearchResult where
  file : String
  line : Nat
  content : String
deriving DecidableEq

/-- The options object passed to the `tsgrep` collaborator's `search`. -/
structure SearchOptions where
  gitignore : Bool
  ignore : List String
  ext : List String
deriving DecidableEq

/-- The external `search(query, folders, options)` collaborator, as the
current `extension.ts` calls it: one call over the whole folder list. -/
def SearchFn : Type := String → List String → SearchOptions → List SearchResult

/-- The rendered `webview.html` of a preview panel, at the granularity the
source distinguishes: the "file not found" notice (line 288), or the preview
template whose header interpolates `path.basename(result.file)` and
`result.line` and whose `<pre>` body is the escaped content (lines 293-311). -/
inductive PanelHtml where
  | empty
  | fileNotFound (file : String)
  | preview (fileBase : String) (line : Nat) (body : String)
deriving DecidableEq

/-- A webview panel handle: identity, whether `dispose()` has run, whether the
`onDidDispose` slot-clearing hook of lines 319-322 was registered, and its
rendered html. -/
structure Panel where
  panelId : Nat
  disposed : Bool
  hooked : Bool
  html : PanelHtml
deriving DecidableEq

/-- A generic disposable host resource (output channel, quick pick). -/
structure Res where
  resId : Nat
  disposed : Bool
deriving DecidableEq

/-- The `ObjectStore` singleton restricted to the keys `extension.ts`
declares (lines 17-24): one `Option` slot per well-known key. -/
structure Store where
  previewPanel : Option Nat
  outputChannel : Option Nat
  lastQuery : Option String
  gitIgnore : Option Bool
  extenstion : Option (List String)
  directory : Option (List String)
  ignores : Option (List String)
  quickPick : Option Nat
deriving DecidableEq

/-- The store with no entries: its state at process start, and after
`objectStore.clear()` (which removes entries without disposing anything). -/
def Store.empty : Store :=
  { previewPanel := none, outputChannel := none, lastQuery := none,
    gitIgnore := none, extenstion := none, directory := none,
    ignores := none, quickPick := none }

/-- The whole extension-host state: the singleton store plus every UI
resource ever created (with its current disposed flag), a fresh-identity
counter, and call counters for the collaborator's two shutdown resources. -/
structure ExtState where
  store : Store
  panels : List Panel
  channels : List Res
  pickers : List Res
  nextId : Nat
  poolDestroyCount : Nat
  cacheClearCount : Nat
deriving DecidableEq

/-- The state before `activate` runs: empty store, no resources. -/
def ExtState.initial : ExtState :=
  { store := Store.empty, panels := [], channels := [], pickers := [],
    nextId := 0, poolDestroyCount := 0, cacheClearCount := 0 }

/-- Mark the panel(s) with the given identity disposed (`panel.dispose()`). -/
def disposePanelById (ps : List Panel) (i : Nat) : List Panel :=
  ps.map fun p => if p.panelId = i then { p with disposed := true } else p

/-- Mark the resource with the given identity disposed. -/
def disposeResById (rs : List Res) (i : Nat) : List Res :=
  rs.map fun r => if r.resId = i then { r with disposed := true } else r

/-- The identities of the panels that are still live (not disposed). -/
def liveIds (ps : List Panel) : List Nat :=
  (ps.filter fun p => !p.disposed).map Panel.panelId

/-! ## Operations, translated from `src/extension.ts` -/

/-- `generateCustomFolderPaths` (lines 26-46): for every open workspace path
and every configured folder, push the folder as-is when absolute, otherwise
join it onto the workspace path; then remove duplicates JS-`Set`-style.  The
ambient `vscode.workspace.workspaceFolders` is the explicit second argument. -/
def generateCustomFolderPaths (folders : List String)
    (workspacePaths : List String) : List String :=
  dedupFirst <| workspacePaths.flatMap fun workspacePath =>
    folders.map fun folder =>
      if isAbsolute folder then folder else pathJoin workspacePath folder

/-- The settings read at search time (lines 69-72), with the declared
defaults for absent keys. -/
def searchOptionsOf (st : Store) : SearchOptions :=
  { gitignore := st.gitIgnore.getD true,
    ignore := st.ignores.getD [],
    ext := st.extenstion.getD ["js", "jsx", "ts", "tsx"] }

/-- The folders the search runs over (lines 74-77): the resolved custom
directories when any are configured, else the workspace roots verbatim. -/
def foldersToSearchOf (workspaceRoots : List String) (st : Store) : List String :=
  let userDirectories := st.directory.getD []
  if 0 < userDirectories.length then
    generateCustomFolderPaths userDirectories workspaceRoots
  else workspaceRoots

/-- `getSearchResults` (lines 60-86): error out (returning `[]`) when no
workspace folder is open, otherwise issue a single collaborator call over the
resolved folder list and return its results unchanged. -/
def getSearchResults (f : SearchFn) (workspaceRoots : List String)
    (st : Store) (query : String) : List SearchResult :=
  if workspaceRoots.isEmpty then []
  else f query (foldersToSearchOf workspaceRoots st) (searchOptionsOf st)

/-- `readContent` from the repository's earlier extension variant
(`src/unnamed/part_002` lines 364-370): empty string for a missing file or an
out-of-range 1-based line, else the trimmed text of that line. -/
def readContent (fs : FileSys) (file : String) (line : Nat) : String :=
  match fs file with
  | none => ""
  | some content =>
    let lines := jsSplitChar '\n' content
    if line < 1 ∨ lines.length < line then ""
    else jsTrim (lines.getD (line - 1) "")

/-- `escapeHtml`'s per-character replacement map, for stating what the five
chained `.replace` calls amount to. -/
def escChar (c : Char) : List Char :=
  if c = '&' then "&amp;".data
  else if c = '<' then "&lt;".data
  else if c = '>' then "&gt;".data
  else if c = Char.ofNat 34 then "&quot;".data
  else if c = Char.ofNat 39 then "&#039;".data
  else [c]

/-- One global single-character `.replace(/c/g, r)` on the character list. -/
def replaceCharL (c : Char) (r : List Char) : List Char → List Char
  | [] => []
  | x :: xs => (if x = c then r else [x]) ++ replaceCharL c r xs

/-- JS `str.replace(/c/g, r)` for a single character pattern. -/
def replaceAllChar (s : String) (c : Char) (r : String) : String :=
  String.mk (replaceCharL c r.data s.data)

/-- `escapeHtml` (lines 346-353): the five chained global replaces, in source
order — ampersand, `<`, `>`, double quote (codepoint 34), single quote
(codepoint 39). -/
def escapeHtml (s : String) : String :=
  replaceAllChar
    (replaceAllChar
      (replaceAllChar
        (replaceAllChar
          (replaceAllChar s '&' "&amp;")
          '<' "&lt;")
        '>' "&gt;")
      (Char.ofNat 34) "&quot;")
    (Char.ofNat 39) "&#039;"

/-- `activate` (lines 48-58): create the output channel and store it under
`OUTPUT_CHANNEL_KEY`; command registration has no state of its own here. -/
def activate (s : ExtState) : ExtState :=
  { s with channels := s.channels ++ [{ resId := s.nextId, disposed := false }],
           store := { s.store with outputChannel := some s.nextId },
           nextId := s.nextId + 1 }

/-- The resource half of `showSearchMenu` (lines 90-95): dispose a previously
stored menu quick pick, create a fresh one and store it under
`QUICK_PICK_KEY`. -/
def showSearchMenuOpen (s : ExtState) : ExtState :=
  let s1 :=
    match s.store.quickPick with
    | some i => { s with pickers := disposeResById s.pickers i }
    | none => s
  { s1 with pickers := s1.pickers ++ [{ resId := s1.nextId, disposed := false }],
            store := { s1.store with quickPick := some s1.nextId },
            nextId := s1.nextId + 1 }

/-- The resource half of `showResultsQuickPick` (lines 235-269): a results
quick pick is created and shown but never stored in the object store. -/
def showResultsOpen (s : ExtState) : ExtState :=
  { s with pickers := s.pickers ++ [{ resId := s.nextId, disposed := false }],
           nextId := s.nextId + 1 }

/-- `showPreview` (lines 272-323): dispose and un-store any stored preview
panel; create the replacement panel; on a missing file set the "file not
found" html and return early — skipping both the store write and the
`onDidDispose` registration of lines 318-322 — otherwise render the escaped
content, store the panel under `PREVIEW_PANEL_KEY` and register the hook. -/
def showPreview (fs : FileSys) (r : SearchResult) (s : ExtState) : ExtState :=
  let s1 :=
    match s.store.previewPanel with
    | some i =>
      { s with panels := disposePanelById s.panels i,
               store := { s.store with previewPanel := none } }
    | none => s
  if (fs r.file).isSome then
    { s1 with
      panels := s1.panels ++
        [{ panelId := s1.nextId, disposed := false, hooked := true,
           html := PanelHtml.preview (basename r.file) r.line (escapeHtml r.content) }],
      store := { s1.store with previewPanel := some s1.nextId },
      nextId := s1.nextId + 1 }
  else
    { s1 with
      panels := s1.panels ++
        [{ panelId := s1.nextId, disposed := false, hooked := false,
           html := PanelHtml.fileNotFound r.file }],
      nextId := s1.nextId + 1 }

/-- `deactivate` (lines 355-365): dispose the stored quick pick if present,
dispose the stored output channel if present, call the worker pool's
`destroy()` and the query cache's `clear()`, then clear the object store.
No other resource — in particular no preview panel — is touched. -/
def deactivate (s : ExtState) : ExtState :=
  let s1 :=
    match s.store.quickPick with
    | some i => { s with pickers := disposeResById s.pickers i }
    | none => s
  let s2 :=
    match s1.store.outputChannel with
    | some i => { s1 with channels := disposeResById s1.channels i }
    | none => s1
  { s2 with poolDestroyCount := s2.poolDestroyCount + 1,
            cacheClearCount := s2.cacheClearCount + 1,
            store := Store.empty }

/-- Comma-split and trim, as every list-field submission applies it
(`newValue.split(',').map((x) => x.trim())`). -/
def splitTrim (s : String) : List String :=
  (jsSplitChar ',' s).map jsTrim

/-- The Extensions row's edit (lines 177-189): `none` models a cancelled
input box (field untouched), `some s` a submission (field replaced). -/
def editExtensions (st : Store) (input : Option String) : Store :=
  match input with
  | none => st
  | some s => { st with extenstion := some (splitTrim s) }

/-- The Directories row's edit (lines 190-202). -/
def editDirectories (st : Store) (input : Option String) : Store :=
  match input with
  | none => st
  | some s => { st with directory := some (splitTrim s) }

/-- The Ignores row's edit (lines 203-216). -/
def editIgnores (st : Store) (input : Option String) : Store :=
  match input with
  | none => st
  | some s => { st with ignores := some (splitTrim s) }

/-- The Git Ignore row (lines 172-176): read the flag (default `true`), store
its negation; no input box is involved. -/
def toggleGitIgnore (st : Store) : Store :=
  { st with gitIgnore := some (!(st.gitIgnore.getD true)) }

/-- The effective ignore-file flag: the stored value, `true` when unset. -/
def gitIgnoreValue (st : Store) : Bool := st.gitIgnore.getD true

/-- What the query branch of the menu's accept handler does next. -/
inductive MenuAction where
  | showMenuAgain
  | notifyNoResults (query : String)
  | openResultsBrowser (results : List SearchResult)
deriving DecidableEq

/-- The query branch of `showSearchMenu`'s accept handler (lines 137-161):
a cancelled or empty prompt re-shows the menu; otherwise the query is stored
as last query and searched; zero results raise a notification and stop, a
non-empty result set opens the results browser.  (The catch branch, lines
162-171, concerns a throwing collaborator and is outside this total model.) -/
def submitQuery (f : SearchFn) (workspaceRoots : List String) (st : Store)
    (input : Option String) : Store × MenuAction :=
  match input with
  | none => (st, MenuAction.showMenuAgain)
  | some q =>
    if q = "" then (st, MenuAction.showMenuAgain)
    else
      let st2 := { st with lastQuery := some q }
      let results := getSearchResults f workspaceRoots st2 q
      if results.isEmpty then (st2, MenuAction.notifyNoResults q)
      else (st2, MenuAction.openResultsBrowser results)

/-- The (file, line) key of each entry, in order: the pairs the spec's
dedup invariant is about. -/
def resultKeys (rs : List SearchResult) : List (String × Nat) :=
  rs.map fun r => (r.file, r.line)

/-! ## Concrete fixtures used by the closed theorems -/

/-- A filesystem with one three-line file, whose middle line trims to
`"abc"`. -/
def fsDemo : FileSys := fun f =>
  if f = "/w1/a.ts" then some "l1\n  abc  \nl3" else none

/-- A result whose file exists in `fsDemo`. -/
def rDemo : SearchResult := { file := "/w1/a.ts", line := 2, content := "abc" }

/-- A result whose file is absent from `fsDemo`. -/
def rGone : SearchResult := { file := "/gone.ts", line := 1, content := "x" }

/-- One concrete hit, used twice by `dupSearchFn`. -/
def dupHit : SearchResult :=
  { file := "/w1/a.ts", line := 3, content := "const foo = 1;" }

/-- A collaborator answering every query with the same hit twice: legal under
the `search` contract, which promises nothing about duplicates. -/
def dupSearchFn : SearchFn := fun _ _ _ => [dupHit, dupHit]

/-- A collaborator whose reported content differs from what the file on disk
holds at that line. -/
def mismatchFn : SearchFn := fun _ _ _ =>
  [{ file := "/w1/a.ts", line := 2, content := "XYZ" }]

/-- A collaborator that finds nothing. -/
def emptySearchFn : SearchFn := fun _ _ _ => []

/-- The state after activation, an opened menu, one completed search with the
results browser open, and a shown preview: output channel (id 0) and menu
picker (id 1) stored, results picker (id 2) live but unstored, preview panel
(id 3) live and stored. -/
def teardownStart : ExtState :=
  showPreview fsDemo rDemo
    (showResultsOpen (showSearchMenuOpen (activate ExtState.initial)))

/-! ## Helper lemmas about the panel bookkeeping -/

theorem liveIds_append (a b : List Panel) :
    liveIds (a ++ b) = liveIds a ++ liveIds b := by
  simp [liveIds, List.filter_append]

theorem liveIds_dispose (ps : List Panel) (i : Nat) :
    liveIds (disposePanelById ps i) = (liveIds ps).filter (fun j => j != i) := by
  induction ps with
  | nil => rfl
  | cons p t ih =>
    by_cases hid : p.panelId = i
    · by_cases hd : p.disposed
      · simp [liveIds, disposePanelById, List.filter_cons, hid, hd] at *
        exact ih
      · simp [liveIds, disposePanelById, List.filter_cons, hid, hd] at *
        exact ih
    · by_cases hd : p.disposed
      · simp [liveIds, disposePanelById, List.filter_cons, hid, hd] at *
        exact ih
      · simp [liveIds, disposePanelById, List.filter_cons, hid, hd, bne] at *
        exact ih

/-- What one `showPreview` call does when the result's file exists: the old
slot occupant (if any) is disposed, the fresh panel (identity `s.nextId`,
escaped-content html) is appended, stored and hooked, and the identity
counter advances. -/
theorem showPreview_step (fs : FileSys) (r : SearchResult) (s : ExtState)
    (h : (fs r.file).isSome = true) :
    (showPreview fs r s).panels =
      (match s.store.previewPanel with
        | some i => disposePanelById s.panels i
        | none => s.panels) ++
      [{ panelId := s.nextId, disposed := false, hooked := true,
         html := PanelHtml.preview (basename r.file) r.line (escapeHtml r.content) }]
    ∧ (showPreview fs r s).store.previewPanel = some s.nextId
    ∧ (showPreview fs r s).nextId = s.nextId + 1 := by
  cases hsp : s.store.previewPanel <;> simp [showPreview, hsp, h]

/-- Under the reaching invariant "every live panel is the stored one", the
panels left live by a `showPreview` call's dispose step are none at all. -/
theorem liveIds_after_dispose_step (s : ExtState)
    (hinv : ∀ i ∈ liveIds s.panels, s.store.previewPanel = some i) :
    liveIds (match s.store.previewPanel with
      | some i => disposePanelById s.panels i
      | none => s.panels) = [] := by
  cases hsp : s.store.previewPanel with
  | none =>
    cases hE : liveIds s.panels with
    | nil => rfl
    | cons a t =>
      have := hinv a (by simp [hE])
      rw [hsp] at this
      exact absurd this (by simp)
  | some j =>
    simp only [liveIds_dispose]
    refine List.filter_eq_nil_iff.mpr ?_
    intro a ha
    have := hinv a ha
    rw [hsp] at this
    simp [Option.some.injEq] at this
    simp [this]

/-! ## Helper lemmas about `escapeHtml` -/

/-- The five chained replaces of `escapeHtml`, on the character list. -/
def escapeCharsL (l : List Char) : List Char :=
  replaceCharL (Char.ofNat 39) "&#039;".data
    (replaceCharL (Char.ofNat 34) "&quot;".data
      (replaceCharL '>' "&gt;".data
        (replaceCharL '<' "&lt;".data
          (replaceCharL '&' "&amp;".data l))))

theorem escapeHtml_data (s : String) : (escapeHtml s).data = escapeCharsL s.data :=
  rfl

theorem replaceCharL_append (c : Char) (r l1 l2 : List Char) :
    replaceCharL c r (l1 ++ l2) = replaceCharL c r l1 ++ replaceCharL c r l2 := by
  induction l1 with
  | nil => rfl
  | cons x xs ih => simp [replaceCharL, ih]

theorem escapeCharsL_append (l1 l2 : List Char) :
    escapeCharsL (l1 ++ l2) = escapeCharsL l1 ++ escapeCharsL l2 := by
  simp [escapeCharsL, replaceCharL_append]

theorem escapeCharsL_singleton (x : Char) : escapeCharsL [x] = escChar x := by
  by_cases h1 : x = '&'
  · subst h1; decide
  by_cases h2 : x = '<'
  · subst h2; decide
  by_cases h3 : x = '>'
  · subst h3; decide
  by_cases h4 : x = Char.ofNat 34
  · subst h4; decide
  by_cases h5 : x = Char.ofNat 39
  · subst h5; decide
  simp [escapeCharsL, replaceCharL, escChar, h1, h2, h3, h4, h5]

theorem escapeCharsL_cons (x : Char) (xs : List Char) :
    escapeCharsL (x :: xs) = escChar x ++ escapeCharsL xs := by
  rw [show x :: xs = [x] ++ xs from rfl, escapeCharsL_append,
    escapeCharsL_singleton]

theorem escapeCharsL_eq_foldr (l : List Char) :
    escapeCharsL l = l.foldr (fun c acc => escChar c ++ acc) [] := by
  induction l with
  | nil => rfl
  | cons x xs ih => rw [escapeCharsL_cons, ih]; rfl

theorem escChar_no_special (x c : Char) (hc : c ∈ escChar x) :
    c ≠ '<' ∧ c ≠ '>' ∧ c ≠ Char.ofNat 34 ∧ c ≠ Char.ofNat 39 := by
  unfold escChar at hc
  by_cases h1 : x = '&'
  · rw [if_pos h1] at hc
    rw [show ("&amp;".data) = ['&', 'a', 'm', 'p', ';'] from rfl] at hc
    fin_cases hc <;> exact ⟨by decide, by decide, by decide, by decide⟩
  rw [if_neg h1] at hc
  by_cases h2 : x = '<'
  · rw [if_pos h2] at hc
    rw [show ("&lt;".data) = ['&', 'l', 't', ';'] from rfl] at hc
    fin_cases hc <;> exact ⟨by decide, by decide, by decide, by decide⟩
  rw [if_neg h2] at hc
  by_cases h3 : x = '>'
  · rw [if_pos h3] at hc
    rw [show ("&gt;".data) = ['&', 'g', 't', ';'] from rfl] at hc
    fin_cases hc <;> exact ⟨by decide, by decide, by decide, by decide⟩
  rw [if_neg h3] at hc
  by_cases h4 : x = Char.ofNat 34
  · rw [if_pos h4] at hc
    rw [show ("&quot;".data) = ['&', 'q', 'u', 'o', 't', ';'] from rfl] at hc
    fin_cases hc <;> exact ⟨by decide, by decide, by decide, by decide⟩
  rw [if_neg h4] at hc
  by_cases h5 : x = Char.ofNat 39
  · rw [if_pos h5] at hc
    rw [show ("&#039;".data) = ['&', '#', '0', '3', '9', ';'] from rfl] at hc
    fin_cases hc <;> exact ⟨by decide, by decide, by decide, by decide⟩
  rw [if_neg h5] at hc
  rcases List.mem_singleton.mp hc with rfl
  exact ⟨h2, h3, h4, h5⟩

theorem mem_escapeCharsL (l : List Char) (c : Char) (hc : c ∈ escapeCharsL l) :
    ∃ x ∈ l, c ∈ escChar x := by
  induction l with
  | nil => exact absurd hc (List.not_mem_nil c)
  | cons x xs ih =>
    rw [escapeCharsL_cons] at hc
    rcases List.mem_append.mp hc with h | h
    · exact ⟨x, List.mem_cons_self x xs, h⟩
    · rcases ih h with ⟨y, hy, hcy⟩
      exact ⟨y, List.mem_cons_of_mem x hy, hcy⟩

/-! ## Further helper lemmas -/

theorem disposePanelById_disposes (ps : List Panel) (i : Nat) :
    ∀ p ∈ disposePanelById ps i, p.panelId = i → p.disposed = true := by
  intro p hp hpi
  rcases List.mem_map.mp hp with ⟨q, hq, rfl⟩
  by_cases h : q.panelId = i
  · simp [h]
  · rw [if_neg h] at hpi
    exact absurd hpi h

theorem disposeResById_disposes (rs : List Res) (i : Nat) :
    ∀ r ∈ disposeResById rs i, r.resId = i → r.disposed = true := by
  intro r hr hri
  rcases List.mem_map.mp hr with ⟨q, hq, rfl⟩
  by_cases h : q.resId = i
  · simp [h]
  · rw [if_neg h] at hri
    exact absurd hri h

/-! ## The claims -/

/-- C1, counterexample: a collaborator may legally return the same
(file, line) hit twice, and `getSearchResults` hands the duplicate pair
through — the aggregated result set returned by the current code is not
(file, line)-unique. -/
theorem duplicate_passthrough :
    getSearchResults dupSearchFn ["/w1"] Store.empty "foo" = [dupHit, dupHit]
    ∧ ¬ (resultKeys (getSearchResults dupSearchFn ["/w1"] Store.empty "foo")).Nodup := by
  decide

/-- C1 (corrected): the current `getSearchResults` performs no deduplication
of its own — given any open workspace it issues one collaborator call over
the resolved folder list and returns that call's result list unchanged, so
the aggregated set is (file, line)-unique exactly when the collaborator's
returned list is. -/
theorem getSearchResults_delegates (f : SearchFn) (ws : List String)
    (st : Store) (q : String) (h : ws ≠ []) :
    getSearchResults f ws st q = f q (foldersToSearchOf ws st) (searchOptionsOf st)
    ∧ ((resultKeys (getSearchResults f ws st q)).Nodup ↔
        (resultKeys (f q (foldersToSearchOf ws st) (searchOptionsOf st))).Nodup) := by
  have hne : ws.isEmpty = false := by
    cases ws with
    | nil => exact absurd rfl h
    | cons a t => rfl
  constructor
  · simp [getSearchResults, hne]
  · simp [getSearchResults, hne]

/-- C1, witness: the delegation theorem applied to the duplicating
collaborator over workspace root `/w1`. -/
theorem getSearchResults_delegates_witness :
    (["/w1"] : List String) ≠ []
    ∧ (getSearchResults dupSearchFn ["/w1"] Store.empty "foo"
          = dupSearchFn "foo" (foldersToSearchOf ["/w1"] Store.empty)
              (searchOptionsOf Store.empty)
      ∧ ((resultKeys (getSearchResults dupSearchFn ["/w1"] Store.empty "foo")).Nodup ↔
          (resultKeys (dupSearchFn "foo" (foldersToSearchOf ["/w1"] Store.empty)
              (searchOptionsOf Store.empty))).Nodup)) :=
  ⟨by decide, getSearchResults_delegates dupSearchFn ["/w1"] Store.empty "foo" (by decide)⟩

/-- C2, counterexample: in the teardown scenario — activation, one completed
search, live stored preview panel — `deactivate` empties the store and calls
`destroy`/`clear` once each, but the preview panel (id 3) stays live: not
every live UI resource handle is disposed. -/
theorem deactivate_leaves_preview_live :
    teardownStart.store.previewPanel = some 3
    ∧ (teardownStart.panels.all fun p => p.disposed) = false
    ∧ (deactivate teardownStart).store = Store.empty
    ∧ (deactivate teardownStart).poolDestroyCount = 1
    ∧ (deactivate teardownStart).cacheClearCount = 1
    ∧ liveIds (deactivate teardownStart).panels = [3]
    ∧ ((deactivate teardownStart).panels.all fun p => p.disposed) = false := by
  decide

/-- C2 (corrected): `deactivate` disposes the stored output channel and the
stored menu picker, calls the worker pool's `destroy()` and the query cache's
`clear()` exactly once each, and leaves the Session Store empty — but it
leaves the panel list untouched, so a live preview panel is dropped from the
store without being disposed. -/
theorem deactivate_spec (s : ExtState) (ci qi : Nat)
    (hc : s.store.outputChannel = some ci) (hq : s.store.quickPick = some qi) :
    (deactivate s).store = Store.empty
    ∧ (deactivate s).poolDestroyCount = s.poolDestroyCount + 1
    ∧ (deactivate s).cacheClearCount = s.cacheClearCount + 1
    ∧ (deactivate s).panels = s.panels
    ∧ (∀ c ∈ (deactivate s).channels, c.resId = ci → c.disposed = true)
    ∧ (∀ p ∈ (deactivate s).pickers, p.resId = qi → p.disposed = true) := by
  unfold deactivate
  simp only [hq, hc]
  refine ⟨?_, ?_, ?_, ?_, ?_, ?_⟩
  · trivial
  · trivial
  · trivial
  · trivial
  · intro c hcm hid
    exact disposeResById_disposes _ _ c hcm hid
  · intro p hpm hid
    exact disposeResById_disposes _ _ p hpm hid

/-- C2, witness: the teardown theorem applied at the concrete post-search
state, whose output channel has id 0 and menu picker id 1. -/
theorem deactivate_spec_witness :
    teardownStart.store.outputChannel = some 0
    ∧ teardownStart.store.quickPick = some 1
    ∧ ((deactivate teardownStart).store = Store.empty
      ∧ (deactivate teardownStart).poolDestroyCount = teardownStart.poolDestroyCount + 1
      ∧ (deactivate teardownStart).cacheClearCount = teardownStart.cacheClearCount + 1
      ∧ (deactivate teardownStart).panels = teardownStart.panels
      ∧ (∀ c ∈ (deactivate teardownStart).channels, c.resId = 0 → c.disposed = true)
      ∧ (∀ p ∈ (deactivate teardownStart).pickers, p.resId = 1 → p.disposed = true)) :=
  ⟨by decide, by decide, deactivate_spec teardownStart 0 1 (by decide) (by decide)⟩

/-- C3, counterexample: when the first result's file is missing,
`showPreview` renders "file not found" and returns before storing the panel,
so the next `showPreview` call cannot dispose it — after two consecutive
calls, panels 0 and 1 are both live, the first call's panel is undisposed,
and the first call left the preview slot empty. -/
theorem showPreview_missing_file_orphans :
    liveIds (showPreview fsDemo rDemo (showPreview fsDemo rGone ExtState.initial)).panels
      = [0, 1]
    ∧ ((showPreview fsDemo rDemo (showPreview fsDemo rGone ExtState.initial)).panels.all
        fun p => p.disposed) = false
    ∧ (showPreview fsDemo rGone ExtState.initial).store.previewPanel = none := by
  decide

/-- C3 (corrected): provided both previewed files exist (the stored-and-
hooked branch runs) and every live panel is the stored one, a stored panel is
disposed by the next `showPreview` call, and after two consecutive calls
exactly one panel — the second call's, id `s.nextId + 1` — is live, the first
call's panel (id `s.nextId`) is disposed, and the slot holds the live one.
When a file is missing the created panel escapes the slot (see the
counterexample). -/
theorem showPreview_single_live (s : ExtState) (r1 r2 : SearchResult)
    (fs1 fs2 : FileSys) (h1 : (fs1 r1.file).isSome = true)
    (h2 : (fs2 r2.file).isSome = true)
    (hinv : ∀ i ∈ liveIds s.panels, s.store.previewPanel = some i)
    (hfresh : ∀ j, s.store.previewPanel = some j → j < s.nextId) :
    (∀ j, s.store.previewPanel = some j →
      ∀ p ∈ (showPreview fs1 r1 s).panels, p.panelId = j → p.disposed = true)
    ∧ liveIds (showPreview fs2 r2 (showPreview fs1 r1 s)).panels = [s.nextId + 1]
    ∧ (∀ p ∈ (showPreview fs2 r2 (showPreview fs1 r1 s)).panels,
        p.panelId = s.nextId → p.disposed = true)
    ∧ (showPreview fs2 r2 (showPreview fs1 r1 s)).store.previewPanel
        = some (s.nextId + 1) := by
  obtain ⟨hA_panels, hA_slot, hA_next⟩ := showPreview_step fs1 r1 s h1
  obtain ⟨hB_panels, hB_slot, hB_next⟩ :=
    showPreview_step fs2 r2 (showPreview fs1 r1 s) h2
  have hA_live : liveIds (showPreview fs1 r1 s).panels = [s.nextId] := by
    rw [hA_panels, liveIds_append, liveIds_after_dispose_step s hinv]
    rfl
  refine ⟨?_, ?_, ?_, ?_⟩
  · intro j hj p hp hpid
    rw [hA_panels] at hp
    rcases List.mem_append.mp hp with hmem | hmem
    · rw [hj] at hmem
      exact disposePanelById_disposes _ _ p hmem hpid
    · rcases List.mem_singleton.mp hmem with rfl
      have : s.nextId = j := hpid
      exact absurd (this ▸ hfresh j hj) (Nat.lt_irrefl _)
  · rw [hB_panels, hA_slot, liveIds_append, liveIds_dispose, hA_live, hA_next]
    simp [liveIds]
  · intro p hp hpid
    rw [hB_panels, hA_slot] at hp
    rcases List.mem_append.mp hp with hmem | hmem
    · exact disposePanelById_disposes _ _ p hmem hpid
    · rcases List.mem_singleton.mp hmem with rfl
      rw [hA_next] at hpid
      exact absurd hpid (Nat.succ_ne_self _)
  · rw [hB_slot, hA_next]

/-- C3, witness: the two-call theorem applied at the initial state with both
files present in `fsDemo`. -/
theorem showPreview_single_live_witness :
    (fsDemo rDemo.file).isSome = true
    ∧ (∀ i ∈ liveIds ExtState.initial.panels,
        ExtState.initial.store.previewPanel = some i)
    ∧ ((∀ j, ExtState.initial.store.previewPanel = some j →
          ∀ p ∈ (showPreview fsDemo rDemo ExtState.initial).panels,
            p.panelId = j → p.disposed = true)
      ∧ liveIds (showPreview fsDemo rDemo
          (showPreview fsDemo rDemo ExtState.initial)).panels
            = [ExtState.initial.nextId + 1]
      ∧ (∀ p ∈ (showPreview fsDemo rDemo
            (showPreview fsDemo rDemo ExtState.initial)).panels,
          p.panelId = ExtState.initial.nextId → p.disposed = true)
      ∧ (showPreview fsDemo rDemo
          (showPreview fsDemo rDemo ExtState.initial)).store.previewPanel
            = some (ExtState.initial.nextId + 1)) :=
  ⟨by decide, by decide,
    showPreview_single_live ExtState.initial rDemo rDemo fsDemo fsDemo
      (by decide) (by decide) (by decide)
      (fun j h => Option.noConfusion h)⟩

/-- C4 (confirmed): root resolution — an empty directory list leaves the
workspace roots verbatim and in order; `["src", "/abs/x"]` against `["/w1"]`
resolves to exactly `["/w1/src", "/abs/x"]`; in general an element is in the
resolved list iff it is an absolute directory entry taken as-is or a relative
entry joined onto some workspace root, and the resolved list has no
duplicates. -/
theorem root_resolution :
    foldersToSearchOf ["/w1", "/w2"] { Store.empty with directory := some [] }
      = ["/w1", "/w2"]
    ∧ foldersToSearchOf ["/w1"] { Store.empty with directory := some ["src", "/abs/x"] }
      = ["/w1/src", "/abs/x"]
    ∧ (∀ (folders workspacePaths : List String) (x : String),
        x ∈ generateCustomFolderPaths folders workspacePaths ↔
          ∃ w ∈ workspacePaths, ∃ d ∈ folders,
            x = if isAbsolute d then d else pathJoin w d)
    ∧ (∀ folders workspacePaths : List String,
        (generateCustomFolderPaths folders workspacePaths).Nodup) := by
  refine ⟨by decide, by decide, ?_, ?_⟩
  · intro folders ws x
    rw [generateCustomFolderPaths, mem_dedupFirst]
    simp only [List.mem_flatMap, List.mem_map]
    constructor
    · rintro ⟨w, hw, d, hd, rfl⟩
      exact ⟨w, hw, d, hd, rfl⟩
    · rintro ⟨w, hw, d, hd, rfl⟩
      exact ⟨w, hw, d, hd, rfl⟩
  · intro folders ws
    exact nodup_dedupFirst _

/-- C5, counterexample: submitting the empty string on a list-valued field
stores `[""]` — the one-element list holding the empty string, since JS
`"".split(',')` is `[""]` — not the empty list the claim states. -/
theorem edit_empty_string_not_empty_list :
    (editExtensions Store.empty (some "")).extenstion = some [""]
    ∧ (editExtensions Store.empty (some "")).extenstion ≠ some ([] : List String)
    ∧ (editDirectories Store.empty (some "")).directory = some [""]
    ∧ (editIgnores Store.empty (some "")).ignores = some [""]
    ∧ splitTrim "" = [""] := by
  decide

/-- C5 (corrected): cancelling a list-field prompt leaves the store
unchanged; any non-cancelled submission replaces the field with the
comma-split, trimmed list; in particular the empty-string submission sets the
field to `[""]` (a single empty entry), not to the empty list. -/
theorem edit_list_fields_spec :
    (∀ st, editExtensions st none = st
      ∧ editDirectories st none = st ∧ editIgnores st none = st)
    ∧ (∀ st s, (editExtensions st (some s)).extenstion = some (splitTrim s)
      ∧ (editDirectories st (some s)).directory = some (splitTrim s)
      ∧ (editIgnores st (some s)).ignores = some (splitTrim s))
    ∧ splitTrim "" = [""]
    ∧ (∀ st, (editExtensions st (some "")).extenstion = some [""]
      ∧ (editDirectories st (some "")).directory = some [""]
      ∧ (editIgnores st (some "")).ignores = some [""]) := by
  refine ⟨fun st => ⟨rfl, rfl, rfl⟩, fun st s => ⟨rfl, rfl, rfl⟩, by decide,
    fun st => ⟨?_, ?_, ?_⟩⟩
  · show some (splitTrim "") = some [""]
    decide
  · show some (splitTrim "") = some [""]
    decide
  · show some (splitTrim "") = some [""]
    decide

/-- C6 (confirmed): the Git Ignore row flips the stored flag (read with
default `true`) and nothing else; toggling twice restores both the effective
value and, for any explicitly stored value, the stored boolean itself. -/
theorem toggle_gitignore_involutive :
    (∀ st, gitIgnoreValue (toggleGitIgnore (toggleGitIgnore st)) = gitIgnoreValue st)
    ∧ (∀ (st : Store) (b : Bool),
        (toggleGitIgnore (toggleGitIgnore { st with gitIgnore := some b })).gitIgnore
          = some b)
    ∧ (∀ st, (toggleGitIgnore st).gitIgnore = some (!(gitIgnoreValue st))) := by
  refine ⟨fun st => ?_, fun st b => ?_, fun st => rfl⟩
  · cases h : st.gitIgnore <;> simp [toggleGitIgnore, gitIgnoreValue, h]
  · simp [toggleGitIgnore, gitIgnoreValue]

/-- C7, counterexample: the current aggregator never reads the filesystem —
its result content is the collaborator's verbatim, and here it differs from
the trimmed text (`"abc"`) that line 2 of the file actually holds, which the
repository's `readContent` helper would have produced. -/
theorem aggregator_returns_collaborator_content :
    getSearchResults mismatchFn ["/w1"] Store.empty "abc"
      = [{ file := "/w1/a.ts", line := 2, content := "XYZ" }]
    ∧ readContent fsDemo "/w1/a.ts" 2 = "abc"
    ∧ ((getSearchResults mismatchFn ["/w1"] Store.empty "abc").all
        fun r => r.content == readContent fsDemo r.file r.line) = false := by
  decide

/-- C7 (corrected): the line-extraction helper `readContent` (used by the
repository's earlier per-root aggregator; the current `getSearchResults`
takes content verbatim from the collaborator) yields the empty string for a
missing file or an out-of-range 1-based line and the trimmed line text
otherwise; on the three-line demo file, lines 0 and 4 give `""` and line 2
gives `"abc"`. -/
theorem readContent_spec (fs : FileSys) (file content : String) (line : Nat)
    (hf : fs file = some content) :
    readContent fs file 0 = ""
    ∧ ((jsSplitChar '\n' content).length < line → readContent fs file line = "")
    ∧ (1 ≤ line → line ≤ (jsSplitChar '\n' content).length →
        readContent fs file line
          = jsTrim ((jsSplitChar '\n' content).getD (line - 1) ""))
    ∧ (∀ g : FileSys, g file = none → ∀ n, readContent g file n = "")
    ∧ readContent fsDemo "/w1/a.ts" 0 = ""
    ∧ readContent fsDemo "/w1/a.ts" 2 = "abc"
    ∧ readContent fsDemo "/w1/a.ts" 4 = ""
    ∧ readContent fsDemo "/missing.ts" 2 = "" := by
  have hshape : ∀ n, readContent fs file n =
      if n < 1 ∨ (jsSplitChar '\n' content).length < n then ""
      else jsTrim ((jsSplitChar '\n' content).getD (n - 1) "") := by
    intro n
    simp [readContent, hf]
  refine ⟨?_, ?_, ?_, ?_, by decide, by decide, by decide, by decide⟩
  · rw [hshape 0, if_pos (Or.inl (by decide))]
  · intro hgt
    rw [hshape line, if_pos (Or.inr hgt)]
  · intro h1 h2
    rw [hshape line, if_neg (by omega)]
  · intro g hg n
    simp [readContent, hg]

/-- C7, witness: the helper specification applied to the demo filesystem's
three-line file at line 2. -/
theorem readContent_spec_witness :
    fsDemo "/w1/a.ts" = some "l1\n  abc  \nl3"
    ∧ (readContent fsDemo "/w1/a.ts" 0 = ""
      ∧ ((jsSplitChar '\n' "l1\n  abc  \nl3").length < 2 →
          readContent fsDemo "/w1/a.ts" 2 = "")
      ∧ (1 ≤ 2 → 2 ≤ (jsSplitChar '\n' "l1\n  abc  \nl3").length →
          readContent fsDemo "/w1/a.ts" 2
            = jsTrim ((jsSplitChar '\n' "l1\n  abc  \nl3").getD (2 - 1) ""))
      ∧ (∀ g : FileSys, g "/w1/a.ts" = none → ∀ n, readContent g "/w1/a.ts" n = "")
      ∧ readContent fsDemo "/w1/a.ts" 0 = ""
      ∧ readContent fsDemo "/w1/a.ts" 2 = "abc"
      ∧ readContent fsDemo "/w1/a.ts" 4 = ""
      ∧ readContent fsDemo "/missing.ts" 2 = "") :=
  ⟨by decide, readContent_spec fsDemo "/w1/a.ts" "l1\n  abc  \nl3" 2 (by decide)⟩

/-- C8 (confirmed): `escapeHtml` is exactly the per-character map replacing
`&`, `<`, `>`, `"` (codepoint 34) and `'` (codepoint 39) by their entities
and keeping every other character; its output contains no raw `<`, `>`,
quote or apostrophe; and the preview panel a `showPreview` call creates for
an existing file carries the result content passed through `escapeHtml` as
its body. -/
theorem escapeHtml_escapes (s : String) (fs : FileSys) (r : SearchResult)
    (st : ExtState) (h : (fs r.file).isSome = true) :
    (escapeHtml s).data = s.data.foldr (fun c acc => escChar c ++ acc) []
    ∧ (∀ c ∈ (escapeHtml s).data,
        c ≠ '<' ∧ c ≠ '>' ∧ c ≠ Char.ofNat 34 ∧ c ≠ Char.ofNat 39)
    ∧ (showPreview fs r st).panels.getLast? =
        some { panelId := st.nextId, disposed := false, hooked := true,
               html := PanelHtml.preview (basename r.file) r.line (escapeHtml r.content) } := by
  refine ⟨?_, ?_, ?_⟩
  · rw [escapeHtml_data, escapeCharsL_eq_foldr]
  · intro c hc
    rw [escapeHtml_data] at hc
    rcases mem_escapeCharsL _ _ hc with ⟨x, _, hcx⟩
    exact escChar_no_special x c hcx
  · obtain ⟨hp, _, _⟩ := showPreview_step fs r st h
    rw [hp, List.getLast?_concat]

/-- C8, witness: the escaping theorem applied to `"a<b&c"` and the demo
preview call. -/
theorem escapeHtml_escapes_witness :
    (fsDemo rDemo.file).isSome = true
    ∧ ((escapeHtml "a<b&c").data
          = "a<b&c".data.foldr (fun c acc => escChar c ++ acc) []
      ∧ (∀ c ∈ (escapeHtml "a<b&c").data,
          c ≠ '<' ∧ c ≠ '>' ∧ c ≠ Char.ofNat 34 ∧ c ≠ Char.ofNat 39)
      ∧ (showPreview fsDemo rDemo ExtState.initial).panels.getLast? =
          some { panelId := ExtState.initial.nextId, disposed := false, hooked := true,
                 html := PanelHtml.preview (basename rDemo.file) rDemo.line
                   (escapeHtml rDemo.content) }) :=
  ⟨by decide, escapeHtml_escapes "a<b&c" fsDemo rDemo ExtState.initial (by decide)⟩

/-- C9 (confirmed): for a non-empty submitted query, a search that comes back
empty raises the no-results notification and never opens the results
browser; the browser is opened only with the non-empty aggregated result
list. -/
theorem zero_results_short_circuit (f : SearchFn) (ws : List String)
    (st : Store) (q : String) (hq : q ≠ "") :
    (getSearchResults f ws { st with lastQuery := some q } q = [] →
      (submitQuery f ws st (some q)).2 = MenuAction.notifyNoResults q)
    ∧ (∀ rs, (submitQuery f ws st (some q)).2 = MenuAction.openResultsBrowser rs →
        rs = getSearchResults f ws { st with lastQuery := some q } q ∧ rs ≠ []) := by
  by_cases hR : getSearchResults f ws { st with lastQuery := some q } q = []
  · constructor
    · intro _
      simp [submitQuery, hq, hR]
    · intro rs hrs
      simp [submitQuery, hq, hR] at hrs
  · constructor
    · intro hcontra
      exact absurd hcontra hR
    · intro rs hrs
      have hne : (getSearchResults f ws { st with lastQuery := some q } q).isEmpty = false := by
        cases hE : getSearchResults f ws { st with lastQuery := some q } q with
        | nil => exact absurd hE hR
        | cons a t => rfl
      simp [submitQuery, hq, hne] at hrs
      exact ⟨hrs.symm, hrs ▸ hR⟩

/-- C9, witness: the short-circuit theorem applied to the empty-result
collaborator with query `"foo"`. -/
theorem zero_results_short_circuit_witness :
    ("foo" : String) ≠ ""
    ∧ ((getSearchResults emptySearchFn ["/w1"]
          { Store.empty with lastQuery := some "foo" } "foo" = [] →
        (submitQuery emptySearchFn ["/w1"] Store.empty (some "foo")).2
          = MenuAction.notifyNoResults "foo")
      ∧ (∀ rs, (submitQuery emptySearchFn ["/w1"] Store.empty (some "foo")).2
            = MenuAction.openResultsBrowser rs →
          rs = getSearchResults emptySearchFn ["/w1"]
              { Store.empty with lastQuery := some "foo" } "foo" ∧ rs ≠ [])) :=
  ⟨by decide, zero_results_short_circuit emptySearchFn ["/w1"] Store.empty "foo" (by decide)⟩

/-- C10 (confirmed): with no workspace root open, `generateCustomFolderPaths`
returns the empty list for every directory list — its outer loop runs over
workspace roots, so even absolute entries are dropped. -/
theorem empty_workspace_empty_roots :
    (∀ folders : List String, generateCustomFolderPaths folders [] = [])
    ∧ generateCustomFolderPaths ["/abs/x", "src"] [] = [] := by
  exact ⟨fun folders => rfl, rfl⟩
